import Mathlib

/-!
Verification of the log-management engine of `nodeloggerg` (`src/nodeloggerg/app.js`)
against its natural-language specification.  The JavaScript source is shallowly
embedded: pure computations become Lean functions, the filesystem becomes an explicit
association list from file names to sizes, wall-clock instants become `Nat`
milliseconds, and environment-dependent primitives (base64 decoding, `new Date`
parsing) become explicit function parameters.
-/

namespace Nodeloggerg

/-! ## Configuration resolution (app.js lines 188-234) -/

/-- JavaScript `a || b` for an optional string `a`: `undefined` and the empty
string (both falsy) fall through to `b`. -/
def jsOrStr (a : Option String) (b : String) : String :=
  match a with
  | none => b
  | some s => if s = "" then b else s

/-- JS `toLowerCase()` (character-list implementation, so that terms reduce
inside the kernel). -/
def toLowerStr (s : String) : String := String.mk (s.toList.map Char.toLower)

/-- JS `toUpperCase()`. -/
def toUpperStr (s : String) : String := String.mk (s.toList.map Char.toUpper)

/-- JS `trim()`: strip whitespace from both ends. -/
def trimStr (s : String) : String :=
  String.mk (((s.toList.dropWhile Char.isWhitespace).reverse.dropWhile
    Char.isWhitespace).reverse)

/-- Kernel-reducible substring search over character lists. -/
def containsSub (pat : List Char) : List Char → Bool
  | [] => pat.isEmpty
  | c :: rest => pat.isPrefixOf (c :: rest) || containsSub pat rest

/-- JS `s.includes(pat)` / `s.indexOf(pat) !== -1`. -/
def containsSubstr (s pat : String) : Bool := containsSub pat.toList s.toList

/-- JS `String.prototype.split` with a one-character separator:
`"".split(sep)` is `[""]`, separators at the edges produce empty fields. -/
def splitOnChar (sep : Char) : List Char → List (List Char)
  | [] => [[]]
  | c :: rest =>
    if c == sep then [] :: splitOnChar sep rest
    else
      match splitOnChar sep rest with
      | [] => [[c]]
      | h :: t => (c :: h) :: t

/-- The default level list used when `options.levels` is absent (line 192). -/
def defaultLevels : List String := ["info", "warn", "error", "debug"]

/-- The default log format (lines 201-204). -/
def defaultLogFormat (level timestamp message : String) : String :=
  "[" ++ timestamp ++ "] [" ++ toUpperStr level ++ "]: " ++ message

/-- The user-supplied options object (the fields of `LogManagerOptions` that the
modeled components consume).  `none` models an absent (`undefined`) field. -/
structure Options where
  levels : Option (List String) := none
  logLevel : Option String := none
  consoleOnly : Bool := false
  fileOnly : Bool := false
  enableMetrics : Option Bool := none
  compressOldLogs : Option Bool := none
  authEnabled : Option Bool := none
  bypassIpCheck : Option Bool := none
  allowedIPs : Option (List String) := none
  authUser : Option String := none
  authPass : Option String := none
  logFormat : Option (String → String → String → String) := none

/-- The resolved `config` object (lines 190-234), restricted to the fields the
modeled components consume. -/
structure Config where
  levels : List String
  consoleOnly : Bool
  fileOnly : Bool
  username : String
  password : String
  allowedIPs : List String
  authEnabled : Bool
  bypassIpCheck : Bool
  compressOldLogs : Bool
  enableMetrics : Bool
  defaultLevel : String
  logFormat : String → String → String → String

/-- Mirrors the `config` literal of lines 190-234.  `enableMetrics` defaults to
`false` (lines 218-219), `compressOldLogs` to `true`, `authEnabled` to `true`,
`bypassIpCheck` to `false`; `defaultLevel` is `options.logLevel` when truthy,
otherwise element 0 of the resolved level list (lines 231-233; an empty level
list would make the JS value `undefined`, rendered here as the string
"undefined" — no claim exercises that corner). -/
def resolveConfig (o : Options) : Config where
  levels := o.levels.getD defaultLevels
  consoleOnly := o.consoleOnly
  fileOnly := o.fileOnly
  username := jsOrStr o.authUser "admin"
  password := jsOrStr o.authPass "admin"
  allowedIPs := o.allowedIPs.getD ["127.0.0.1", "::1"]
  authEnabled := o.authEnabled.getD true
  bypassIpCheck := o.bypassIpCheck.getD false
  compressOldLogs := o.compressOldLogs.getD true
  enableMetrics := o.enableMetrics.getD false
  defaultLevel := jsOrStr o.logLevel ((o.levels.getD defaultLevels).headD "undefined")
  logFormat := o.logFormat.getD defaultLogFormat

/-! ## The core `log` entry construction (app.js lines 505-532) -/

/-- A JavaScript argument to `log(level, ...args)` as seen by the `message`
builder (lines 513-522): an `Error` instance carries a message and a stack, any
other object is serialized by `JSON.stringify` with all own property names
(the serialization result is taken as given), and everything else is rendered
through `String(...)` (strings render to themselves). -/
inductive JsArg where
  | errObj (message stack : String)
  | obj (json : String)
  | other (str : String)
deriving DecidableEq

/-- The per-argument rendering of lines 514-521. -/
def renderArg : JsArg → String
  | .errObj m s => m ++ " \n" ++ s
  | .obj j => j
  | .other s => s

/-- JavaScript `Array.prototype.join(" ")`. -/
def joinSpace : List String → String
  | [] => ""
  | [x] => x
  | x :: y :: ys => x ++ " " ++ joinSpace (y :: ys)

/-- Level-resolution policy of lines 507-511: an unrecognized level is
unshifted onto the argument list (a plain string, hence `JsArg.other`) and the
configured default level is substituted. -/
def logResolve (cfg : Config) (level : String) (args : List JsArg) :
    String × List JsArg :=
  if cfg.levels.contains level then (level, args)
  else (cfg.defaultLevel, JsArg.other level :: args)

/-- One completed log entry (lines 527-532). -/
structure LogEntry where
  level : String
  timestamp : String
  message : String
  formattedMessage : String

/-- The pure core of `log(level, ...args)` (lines 505-532): resolve the level,
flatten the arguments into `message`, and build the entry.  The wall-clock
timestamp produced by `formatTimestamp()` is passed in as `ts`.  This function
is total: no input throws. -/
def mkLogEntry (cfg : Config) (level : String) (args : List JsArg) (ts : String) :
    LogEntry :=
  let r := logResolve cfg level args
  let message := joinSpace (r.2.map renderArg)
  { level := r.1, timestamp := ts, message := message,
    formattedMessage := cfg.logFormat r.1 ts message }

/-! ## Ring buffer (app.js lines 305-306 and 537-543) -/

/-- The default buffer capacity `MAX_BUFFER_SIZE` (line 306). -/
def MAX_BUFFER_SIZE : Nat := 1000

/-- One buffered insertion (lines 537-543): `push` the entry, then `shift` the
oldest entry off the front when the length exceeds the capacity. -/
def bufferPush (cap : Nat) (buf : List LogEntry) (x : LogEntry) : List LogEntry :=
  if cap < (buf ++ [x]).length then (buf ++ [x]).drop 1 else buf ++ [x]

/-- Ingesting a sequence of entries into an initially empty buffer. -/
def bufferIngest (cap : Nat) (es : List LogEntry) : List LogEntry :=
  es.foldl (bufferPush cap) []

theorem bufferPush_foldl (cap : Nat) :
    ∀ (es buf : List LogEntry), buf.length ≤ cap →
      es.foldl (bufferPush cap) buf =
        (buf ++ es).drop (buf.length + es.length - cap)
  | [], buf, h => by
    simp [List.foldl, Nat.sub_eq_zero_of_le h]
  | x :: es, buf, h => by
    rw [List.foldl_cons]
    by_cases hlt : cap < (buf ++ [x]).length
    · have hlen : buf.length = cap := by
        simp only [List.length_append, List.length_cons, List.length_nil] at hlt
        omega
      have hstep : bufferPush cap buf x = (buf ++ [x]).drop 1 := by
        simp only [bufferPush, if_pos hlt]
      have hlen1 : ((buf ++ [x]).drop 1).length ≤ cap := by
        simp [hlen]
      rw [hstep, bufferPush_foldl cap es _ hlen1]
      have h3 : (buf ++ [x]).drop 1 ++ es = ((buf ++ [x]) ++ es).drop 1 :=
        (List.drop_append_of_le_length (by simp)).symm
      rw [h3, List.drop_drop]
      have h4 : buf ++ x :: es = (buf ++ [x]) ++ es := by simp
      rw [h4]
      have h5 : 1 + (((buf ++ [x]).drop 1).length + es.length - cap)
          = buf.length + (x :: es).length - cap := by
        simp only [List.length_drop, List.length_append, List.length_cons,
          List.length_nil, hlen]
        omega
      rw [h5]
    · have hstep : bufferPush cap buf x = buf ++ [x] := by
        simp only [bufferPush, if_neg hlt]
      have hlen1 : (buf ++ [x]).length ≤ cap := by
        simp only [List.length_append, List.length_cons, List.length_nil] at hlt ⊢
        omega
      rw [hstep, bufferPush_foldl cap es _ hlen1]
      have h3 : (buf ++ [x]) ++ es = buf ++ x :: es := by simp
      have h4 : (buf ++ [x]).length + es.length - cap
          = buf.length + (x :: es).length - cap := by
        simp only [List.length_append, List.length_cons, List.length_nil]
        omega
      rw [h3, h4]

/-- An `Options` value with every field absent: `createLogManager()` with no
argument (line 188). -/
def optionsNone : Options := {}

/-- Claim C1: a `log(level, ...values)` call whose `level` is not in the
configured level set does not throw: the level is unshifted onto the value
list as an additional message token, the configured default level (the first
configured level unless overridden by `options.logLevel`) is substituted, and
the returned completed entry has the default level and a message beginning
with the original level token (app.js lines 505-532 and 231-233;
`mkLogEntry` is a total function, so no input rejects the call). -/
theorem log_unknown_level_degrades (cfg : Config) (level : String)
    (args : List JsArg) (ts : String) (lvls : List String)
    (h : cfg.levels.contains level = false) (hne : lvls ≠ []) :
    (mkLogEntry cfg level args ts).level = cfg.defaultLevel
    ∧ (∃ rest, (mkLogEntry cfg level args ts).message = level ++ rest)
    ∧ (mkLogEntry cfg level args ts).formattedMessage
        = cfg.logFormat cfg.defaultLevel ts (mkLogEntry cfg level args ts).message
    ∧ (resolveConfig { levels := some lvls }).defaultLevel = lvls.headD "" := by
  have hmem : level ∉ cfg.levels := by
    intro hm
    rw [show cfg.levels.contains level = (level ∈ cfg.levels : Bool) from
      List.elem_eq_mem level cfg.levels] at h
    simp [hm] at h
  have hr : logResolve cfg level args = (cfg.defaultLevel, JsArg.other level :: args) := by
    simp [logResolve, hmem]
  refine ⟨?_, ?_, ?_, ?_⟩
  · simp [mkLogEntry, hr]
  · cases args with
    | nil =>
      refine ⟨"", ?_⟩
      simp [mkLogEntry, hr, renderArg, joinSpace]
    | cons a as =>
      refine ⟨" " ++ joinSpace ((a :: as).map renderArg), ?_⟩
      simp only [mkLogEntry, hr, List.map_cons, renderArg, joinSpace]
      rw [String.append_assoc]
  · simp [mkLogEntry, hr]
  · cases lvls with
    | nil => exact absurd rfl hne
    | cons a t => simp [resolveConfig, jsOrStr]

/-- Witness for C1: with the default configuration, logging at the
unrecognized level "fatal" yields an entry at the default level "info". -/
theorem log_unknown_level_degrades_witness :
    (resolveConfig optionsNone).levels.contains "fatal" = false
    ∧ (mkLogEntry (resolveConfig optionsNone) "fatal" [JsArg.other "disk full"]
        "2025-01-01 00:00:00").level = (resolveConfig optionsNone).defaultLevel :=
  ⟨by decide,
   (log_unknown_level_degrades (resolveConfig optionsNone) "fatal"
      [JsArg.other "disk full"] "2025-01-01 00:00:00" ["info"]
      (by decide) (by decide)).1⟩

/-- Claim C2: ingesting `N` entries into the ring buffer of capacity `cap`
(`MAX_BUFFER_SIZE = 1000` by default, lines 305-306) leaves exactly
`min N cap` entries, namely the most recently ingested ones in oldest-first
order (`es.drop (es.length - cap)`); after every intermediate ingestion the
length is at most `cap`, the oldest entry being shifted off when a push
exceeds the capacity (lines 537-543). -/
theorem ring_buffer_bounded_fifo (cap : Nat) (es : List LogEntry) :
    bufferIngest cap es = es.drop (es.length - cap)
    ∧ (bufferIngest cap es).length = min es.length cap
    ∧ (∀ k : Nat, (bufferIngest cap (es.take k)).length ≤ cap)
    ∧ MAX_BUFFER_SIZE = 1000 := by
  have key : ∀ l : List LogEntry, bufferIngest cap l = l.drop (l.length - cap) := by
    intro l
    have h0 := bufferPush_foldl cap l [] (by simp)
    simpa [bufferIngest] using h0
  refine ⟨key es, ?_, ?_, rfl⟩
  · rw [key es]
    simp only [List.length_drop]
    omega
  · intro k
    rw [key (es.take k)]
    simp only [List.length_drop]
    omega

/-! ## Metrics aggregator (app.js lines 296-302 and 383-408) -/

/-- The metrics record (lines 296-302).  JS millisecond instants are `Nat`;
the `logsPerMinute` snapshots carry the instant that line 392 serializes to an
ISO string, paired with the running `count`. -/
structure Metrics where
  totalLogs : Nat
  logsByLevel : List (String × Nat)
  logsPerMinute : List (Nat × Nat)
  errorsPerMinute : Nat
  lastMinuteTimestamp : Nat
deriving DecidableEq

/-- `metrics.logsByLevel[level] || 0` (line 387). -/
def lookupCount (l : List (String × Nat)) (lv : String) : Nat :=
  ((l.find? (fun e => e.1 == lv)).map (fun e => e.2)).getD 0

/-- JS object assignment `logsByLevel[level] = n`. -/
def setCount (l : List (String × Nat)) (lv : String) (n : Nat) : List (String × Nat) :=
  (lv, n) :: l.filter (fun e => !(e.1 == lv))

/-- The initial metrics of lines 296-302, with creation instant `t0`. -/
def metricsInit (t0 : Nat) : Metrics :=
  { totalLogs := 0, logsByLevel := [], logsPerMinute := [],
    errorsPerMinute := 0, lastMinuteTimestamp := t0 }

/-- `updateMetrics(level)` (lines 383-408) at wall-clock instant `now`:
no-op when metrics are disabled; otherwise bump `totalLogs` and
`logsByLevel[level]`, then, when at least 60000 ms have elapsed since
`lastMinuteTimestamp`, push the snapshot and cap the history at 60 entries
(shifting the oldest), zero `errorsPerMinute`, and advance
`lastMinuteTimestamp`; finally bump `errorsPerMinute` when the level is
exactly "error".  (JS computes `now - last >= 60000` over integers; for
`now < last` both that test and the truncated `Nat` version are false.) -/
def updateMetrics (enableMetrics : Bool) (m : Metrics) (level : String)
    (now : Nat) : Metrics :=
  if !enableMetrics then m
  else
    let m1 : Metrics :=
      { m with
          totalLogs := m.totalLogs + 1
          logsByLevel := setCount m.logsByLevel level
            (lookupCount m.logsByLevel level + 1) }
    let m2 : Metrics :=
      if 60000 ≤ now - m1.lastMinuteTimestamp then
        let lpm := m1.logsPerMinute ++ [(m1.lastMinuteTimestamp, m1.totalLogs)]
        let lpm2 := if 60 < lpm.length then lpm.drop 1 else lpm
        { m1 with
            logsPerMinute := lpm2
            errorsPerMinute := 0
            lastMinuteTimestamp := now }
      else m1
    if level == "error" then { m2 with errorsPerMinute := m2.errorsPerMinute + 1 }
    else m2

/-- Folding a sequence of (level, instant) log calls through the metrics. -/
def ingestMetrics (enableMetrics : Bool) (calls : List (String × Nat))
    (t0 : Nat) : Metrics :=
  calls.foldl (fun m c => updateMetrics enableMetrics m c.1 c.2) (metricsInit t0)

theorem lookupCount_setCount_self (l : List (String × Nat)) (lv : String) (n : Nat) :
    lookupCount (setCount l lv n) lv = n := by
  simp [lookupCount, setCount, List.find?]

/-- Claim C5: when a log call with metrics enabled observes that at least
60000 ms elapsed since `lastMinuteTimestamp`, the update appends the snapshot
`(lastMinuteTimestamp, totalLogs)` (with `totalLogs` already bumped by this
call, line 386 runs before line 391) to `logsPerMinute`, capped at 60 entries
with the oldest shifted off, zeroes `errorsPerMinute` (re-bumped to 1 only
when this very call is an "error"), and advances `lastMinuteTimestamp` to
`now`; when fewer than 60000 ms elapsed, `logsPerMinute` is untouched — and
since `updateMetrics` only runs inside `log()`, minutes without a log call
produce no snapshot at all (lines 389-403). -/
theorem metrics_minute_snapshot (m : Metrics) (level : String) (now : Nat)
    (hb : 60000 ≤ now - m.lastMinuteTimestamp) :
    (updateMetrics true m level now).logsPerMinute =
      (if 60 < (m.logsPerMinute ++ [(m.lastMinuteTimestamp, m.totalLogs + 1)]).length
       then (m.logsPerMinute ++ [(m.lastMinuteTimestamp, m.totalLogs + 1)]).drop 1
       else m.logsPerMinute ++ [(m.lastMinuteTimestamp, m.totalLogs + 1)])
    ∧ (updateMetrics true m level now).lastMinuteTimestamp = now
    ∧ (updateMetrics true m level now).errorsPerMinute
        = (if level = "error" then 1 else 0)
    ∧ (m.logsPerMinute.length ≤ 60 →
        (updateMetrics true m level now).logsPerMinute.length ≤ 60)
    ∧ (∀ now2 : Nat, now2 - m.lastMinuteTimestamp < 60000 →
        (updateMetrics true m level now2).logsPerMinute = m.logsPerMinute) := by
  have h1 : (updateMetrics true m level now).logsPerMinute =
      (if 60 < (m.logsPerMinute ++ [(m.lastMinuteTimestamp, m.totalLogs + 1)]).length
       then (m.logsPerMinute ++ [(m.lastMinuteTimestamp, m.totalLogs + 1)]).drop 1
       else m.logsPerMinute ++ [(m.lastMinuteTimestamp, m.totalLogs + 1)]) := by
    simp [updateMetrics, hb]
    split <;> rfl
  refine ⟨h1, ?_, ?_, ?_, ?_⟩
  · simp [updateMetrics, hb]
    split <;> rfl
  · simp [updateMetrics, hb]
    by_cases he : level = "error" <;> simp [he]
  · intro hle
    rw [h1]
    split <;> simp_all [List.length_drop, List.length_append]
  · intro now2 h2
    have hb2 : ¬ 60000 ≤ now2 - m.lastMinuteTimestamp := by omega
    simp [updateMetrics, hb2]
    split <;> rfl

/-- Witness for C5 at a concrete metrics state. -/
theorem metrics_minute_snapshot_witness :
    (60000 ≤ 61000 - (metricsInit 1000).lastMinuteTimestamp)
    ∧ (updateMetrics true (metricsInit 1000) "error" 61000).lastMinuteTimestamp
        = 61000 :=
  ⟨by decide,
   (metrics_minute_snapshot (metricsInit 1000) "error" 61000 (by decide)).2.1⟩

/-- Claim C6 counterexample: with the default configuration — which accepts
the levels "info" and "error" but resolves `enableMetrics` to `false` (lines
218-219) — ingesting entries of levels info, error, info leaves
`totalLogs = 0`, not 3: `updateMetrics` returns immediately at line 384. -/
theorem metrics_disabled_by_default_counterexample :
    (resolveConfig optionsNone).levels.contains "info" = true
    ∧ (resolveConfig optionsNone).levels.contains "error" = true
    ∧ (ingestMetrics (resolveConfig optionsNone).enableMetrics
        [("info", 0), ("error", 0), ("info", 0)] 0).totalLogs = 0
    ∧ ¬ (ingestMetrics (resolveConfig optionsNone).enableMetrics
        [("info", 0), ("error", 0), ("info", 0)] 0).totalLogs = 3 := by
  refine ⟨by decide, by decide, by decide, by decide⟩

/-- Claim C6 (amended): in any configuration with metrics enabled, every log
call increments `totalLogs` and `logsByLevel[level]` (lines 386-387), and
after ingesting entries of levels info, error, info the counters read
`totalLogs = 3`, `logsByLevel = info ↦ 2, error ↦ 1`. -/
theorem metrics_counts_by_level :
    (∀ (m : Metrics) (lv : String) (now : Nat),
        (updateMetrics true m lv now).totalLogs = m.totalLogs + 1
        ∧ lookupCount (updateMetrics true m lv now).logsByLevel lv
            = lookupCount m.logsByLevel lv + 1)
    ∧ (ingestMetrics true [("info", 0), ("error", 0), ("info", 0)] 0).totalLogs = 3
    ∧ lookupCount (ingestMetrics true
        [("info", 0), ("error", 0), ("info", 0)] 0).logsByLevel "info" = 2
    ∧ lookupCount (ingestMetrics true
        [("info", 0), ("error", 0), ("info", 0)] 0).logsByLevel "error" = 1 := by
  refine ⟨?_, by decide, by decide, by decide⟩
  intro m lv now
  constructor
  · simp [updateMetrics]
    split <;> split <;> rfl
  · simp [updateMetrics]
    split <;> split <;> simp [lookupCount_setCount_self]

/-! ## File sink and rotation (app.js lines 17, 461-478 and 578-609)

The filesystem is an association list from file names to sizes in bytes;
`fsStat` is `fs.promises.stat(..).size` plus `fs.existsSync` (a `none` result
is a missing file). -/

/-- Sizes of the files on disk, keyed by name. -/
abbrev FS := List (String × Nat)

/-- The size of file `p`, or `none` when it does not exist. -/
def fsStat (fs : FS) (p : String) : Option Nat :=
  (fs.find? (fun e => e.1 == p)).map (fun e => e.2)

/-- `fs.existsSync(p)`. -/
def fsExistsB (fs : FS) (p : String) : Bool := (fsStat fs p).isSome

/-- `fs.promises.unlink(p)` (also the removal half of a rename). -/
def fsRemove (fs : FS) (p : String) : FS := fs.filter (fun e => !(e.1 == p))

/-- Create or overwrite file `p` with `n` bytes. -/
def fsSet (fs : FS) (p : String) (n : Nat) : FS := (p, n) :: fsRemove fs p

/-- `fs.promises.rename(src, dst)`: moves the file's bytes to `dst`
(overwriting `dst`); a missing `src` is left to the caller's try/catch and
modeled as a no-op. -/
def fsRename (fs : FS) (src dst : String) : FS :=
  match fsStat fs src with
  | none => fs
  | some n => fsSet (fsRemove fs src) dst n

/-- `fs.promises.appendFile(p, data)`: grows the file by `n` bytes, creating
it at size 0 first when missing. -/
def fsAppend (fs : FS) (p : String) (n : Nat) : FS :=
  match fsStat fs p with
  | none => fsSet fs p n
  | some m => fsSet fs p (m + n)

theorem fsStat_cons (a : String × Nat) (t : FS) (q : String) :
    fsStat (a :: t) q = if a.1 = q then some a.2 else fsStat t q := by
  by_cases h : a.1 = q
  · simp [fsStat, List.find?_cons_of_pos, h]
  · simp [fsStat, List.find?_cons_of_neg, h]

theorem fsStat_filter_self (fs : FS) (p : String) :
    fsStat (fs.filter (fun e => !(e.1 == p))) p = none := by
  induction fs with
  | nil => rfl
  | cons a t ih =>
    rw [List.filter_cons]
    by_cases h : a.1 = p
    · rw [if_neg (by simp [h])]
      exact ih
    · rw [if_pos (by simp [h]), fsStat_cons, if_neg h]
      exact ih

theorem fsStat_filter_ne (fs : FS) (p q : String) (h : q ≠ p) :
    fsStat (fs.filter (fun e => !(e.1 == p))) q = fsStat fs q := by
  induction fs with
  | nil => rfl
  | cons a t ih =>
    rw [List.filter_cons]
    by_cases h1 : a.1 = p
    · rw [if_neg (by simp [h1]), ih, fsStat_cons,
        if_neg (by rw [h1]; exact fun hq => h hq.symm)]
    · rw [if_pos (by simp [h1]), fsStat_cons, fsStat_cons]
      by_cases h2 : a.1 = q
      · rw [if_pos h2, if_pos h2]
      · rw [if_neg h2, if_neg h2]
        exact ih

theorem fsStat_fsRemove_self (fs : FS) (p : String) :
    fsStat (fsRemove fs p) p = none := fsStat_filter_self fs p

theorem fsStat_fsRemove_ne (fs : FS) (p q : String) (h : q ≠ p) :
    fsStat (fsRemove fs p) q = fsStat fs q := fsStat_filter_ne fs p q h

theorem fsStat_fsSet_self (fs : FS) (p : String) (n : Nat) :
    fsStat (fsSet fs p n) p = some n := by
  rw [fsSet, fsStat_cons, if_pos rfl]

theorem fsStat_fsSet_ne (fs : FS) (p q : String) (n : Nat) (h : q ≠ p) :
    fsStat (fsSet fs p n) q = fsStat fs q := by
  rw [fsSet, fsStat_cons, if_neg (fun hq => h hq.symm)]
  exact fsStat_filter_ne fs p q h

theorem string_ne_append_gz (p : String) : p ≠ p ++ ".gz" := by
  intro h
  have h2 := congrArg String.length h
  rw [String.length_append] at h2
  have h3 : (".gz" : String).length = 3 := rfl
  omega

/-- `compressLogFile(filePath)` (lines 461-478) with the outcome of the gzip
pipeline supplied as `pipelineOk` and the compressed size as `gzBytes`: when
compression is disabled it returns immediately (JS `undefined`, modeled
`none`); on pipeline success the `.gz` file holds the compressed bytes and
the source is unlinked afterwards; on pipeline failure the error is caught,
the partially-created `.gz` stream target is left (modeled at size 0), the
source file is untouched, and `null` (modeled `none`) is returned. -/
def compressLogFile (compressOldLogs : Bool) (fs : FS) (filePath : String)
    (pipelineOk : Bool) (gzBytes : Nat) : FS × Option String :=
  if !compressOldLogs then (fs, none)
  else
    let gzipPath := filePath ++ ".gz"
    if pipelineOk then (fsRemove (fsSet fs gzipPath gzBytes) filePath, some gzipPath)
    else (fsSet fs gzipPath 0, none)

/-- `MAX_FILE_SIZE` (line 17). -/
def MAX_FILE_SIZE : Nat := 5 * 1024 * 1024

/-- `formatTimestamp().replace(/[: ]/g, "-")` (line 591). -/
def sanitizeTimestamp (ts : String) : String :=
  String.mk (ts.toList.map (fun c => if c == ':' || c == ' ' then '-' else c))

/-- JS `String.prototype.replace` with a string pattern: replace the first
occurrence only (an empty pattern matches at the start). -/
def replaceFirstChars (pat rep : List Char) : List Char → List Char
  | [] => []
  | c :: rest =>
    if pat.isPrefixOf (c :: rest) then rep ++ (c :: rest).drop pat.length
    else c :: replaceFirstChars pat rep rest

/-- `logFile.replace(".txt", "_" + sanitized + ".txt")` (lines 589-592). -/
def archiveName (logFile ts : String) : String :=
  String.mk (replaceFirstChars ".txt".toList
    ("_" ++ sanitizeTimestamp ts ++ ".txt").toList logFile.toList)

/-- `stats.size` as consulted by line 587 (only meaningful when the file
exists, which is exactly when line 586 lets the code reach the `stat`). -/
def fsSize (fs : FS) (p : String) : Nat := (fsStat fs p).getD 0

/-- The file-output block of `log()` (lines 578-609): when the active file
exists (`existsSync`, line 586) and its stat size is at least `maxSize`
(line 588), rename it to the timestamped archive name (line 593) and, if
compression is enabled, compress the archive (lines 596-598); in all cases
the formatted line (`lineBytes` bytes) is then appended to the active file
(line 605), creating it when missing.  The second component records whether
the rotation branch ran. -/
def fileSink (maxSize : Nat) (compress : Bool) (fs : FS) (logFile ts : String)
    (lineBytes : Nat) (pipelineOk : Bool) (gzBytes : Nat) : FS × Bool :=
  let fs2 :=
    if fsExistsB fs logFile then
      if maxSize ≤ fsSize fs logFile then
        let arch := archiveName logFile ts
        let fs1 := fsRename fs logFile arch
        if compress then (compressLogFile compress fs1 arch pipelineOk gzBytes).1
        else fs1
      else fs
    else fs
  (fsAppend fs2 logFile lineBytes,
   fsExistsB fs logFile && decide (maxSize ≤ fsSize fs logFile))

/-- Claim C4: with compression enabled, the uncompressed archive is deleted
only after the gzip pipeline completes successfully; a pipeline failure
leaves the uncompressed archive in place (its caught error is only logged)
and `compressLogFile` resolves to `null` instead of throwing — `compressLogFile`
is a total function, completing the enclosing log call either way
(lines 461-478). -/
theorem compress_only_deletes_after_success (fs : FS) (p : String) (gz : Nat) :
    (compressLogFile true fs p false gz).2 = none
    ∧ fsStat (compressLogFile true fs p false gz).1 p = fsStat fs p
    ∧ (compressLogFile true fs p true gz).2 = some (p ++ ".gz")
    ∧ fsStat (compressLogFile true fs p true gz).1 p = none
    ∧ fsStat (compressLogFile true fs p true gz).1 (p ++ ".gz") = some gz := by
  refine ⟨rfl, ?_, rfl, ?_, ?_⟩
  · show fsStat (fsSet fs (p ++ ".gz") 0) p = fsStat fs p
    exact fsStat_fsSet_ne fs (p ++ ".gz") p 0 (string_ne_append_gz p)
  · show fsStat (fsRemove (fsSet fs (p ++ ".gz") gz) p) p = none
    exact fsStat_fsRemove_self _ p
  · show fsStat (fsRemove (fsSet fs (p ++ ".gz") gz) p) (p ++ ".gz") = some gz
    rw [fsStat_fsRemove_ne _ p (p ++ ".gz") (string_ne_append_gz p).symm]
    exact fsStat_fsSet_self fs (p ++ ".gz") gz

/-- Claim C3: within a file write of `log()`, rotation runs if and only if
the active file exists and its size at check time is at least `MAX_FILE_SIZE`
(lines 586-588); on rotation the active file is renamed to the archive name
embedding the formatted timestamp with ':' and ' ' replaced by '-'
(lines 589-593, witnessed by the `sanitizeTimestamp` conjunct and by the
archive landing at `archiveName`), and the active file is recreated at size 0
before the append, so it holds exactly the new line's bytes afterwards
(line 605). -/
theorem rotation_threshold (fs : FS) (logFile ts : String) (lineBytes : Nat)
    (compress pipelineOk : Bool) (gzBytes : Nat)
    (harch : archiveName logFile ts ≠ logFile)
    (hgz : archiveName logFile ts ++ ".gz" ≠ logFile) :
    ((fileSink MAX_FILE_SIZE compress fs logFile ts lineBytes pipelineOk gzBytes).2 = true
        ↔ ∃ s, fsStat fs logFile = some s ∧ MAX_FILE_SIZE ≤ s)
    ∧ (∀ s, fsStat fs logFile = some s → MAX_FILE_SIZE ≤ s →
        fsStat (fileSink MAX_FILE_SIZE compress fs logFile ts lineBytes
          pipelineOk gzBytes).1 logFile = some lineBytes)
    ∧ (∀ s, fsStat fs logFile = some s → MAX_FILE_SIZE ≤ s → compress = false →
        fsStat (fileSink MAX_FILE_SIZE compress fs logFile ts lineBytes
          pipelineOk gzBytes).1 (archiveName logFile ts) = some s)
    ∧ sanitizeTimestamp "2024-12-21 11:10:23" = "2024-12-21-11-10-23" := by
  refine ⟨?_, ?_, ?_, by decide⟩
  · constructor
    · intro h2
      have h3 : (fsExistsB fs logFile
          && decide (MAX_FILE_SIZE ≤ fsSize fs logFile)) = true := h2
      rw [Bool.and_eq_true] at h3
      obtain ⟨hex, hsz⟩ := h3
      match hstat : fsStat fs logFile with
      | none =>
        rw [fsExistsB, hstat] at hex
        exact absurd hex (by simp)
      | some s =>
        refine ⟨s, rfl, ?_⟩
        have h4 := of_decide_eq_true hsz
        rwa [fsSize, hstat, Option.getD_some] at h4
    · rintro ⟨s, hstat, hge⟩
      show (fsExistsB fs logFile
          && decide (MAX_FILE_SIZE ≤ fsSize fs logFile)) = true
      rw [Bool.and_eq_true]
      refine ⟨by rw [fsExistsB, hstat]; rfl, ?_⟩
      rw [fsSize, hstat, Option.getD_some]
      exact decide_eq_true hge
  · intro s hstat hge
    have hex : fsExistsB fs logFile = true := by rw [fsExistsB, hstat]; rfl
    have hsz : fsSize fs logFile = s := by rw [fsSize, hstat]; rfl
    have hgone : fsStat (fsRename fs logFile (archiveName logFile ts)) logFile
        = none := by
      rw [fsRename, hstat]
      show fsStat (fsSet (fsRemove fs logFile) (archiveName logFile ts) s)
        logFile = none
      rw [fsStat_fsSet_ne _ _ _ _ harch.symm]
      exact fsStat_fsRemove_self fs logFile
    have hgone2 : fsStat
        (if compress then
          (compressLogFile compress (fsRename fs logFile (archiveName logFile ts))
            (archiveName logFile ts) pipelineOk gzBytes).1
         else fsRename fs logFile (archiveName logFile ts)) logFile = none := by
      cases compress with
      | false => exact hgone
      | true =>
        cases pipelineOk with
        | true =>
          show fsStat (fsRemove (fsSet _ (archiveName logFile ts ++ ".gz") gzBytes)
            (archiveName logFile ts)) logFile = none
          rw [fsStat_fsRemove_ne _ _ _ harch.symm, fsStat_fsSet_ne _ _ _ _ hgz.symm]
          exact hgone
        | false =>
          show fsStat (fsSet _ (archiveName logFile ts ++ ".gz") 0) logFile = none
          rw [fsStat_fsSet_ne _ _ _ _ hgz.symm]
          exact hgone
    show fsStat (fsAppend
        (if fsExistsB fs logFile then
          if MAX_FILE_SIZE ≤ fsSize fs logFile then
            if compress then
              (compressLogFile compress (fsRename fs logFile (archiveName logFile ts))
                (archiveName logFile ts) pipelineOk gzBytes).1
            else fsRename fs logFile (archiveName logFile ts)
          else fs
         else fs) logFile lineBytes) logFile = some lineBytes
    rw [hex, if_pos rfl, hsz, if_pos hge, fsAppend, hgone2]
    show fsStat (fsSet
        (if compress then
          (compressLogFile compress (fsRename fs logFile (archiveName logFile ts))
            (archiveName logFile ts) pipelineOk gzBytes).1
         else fsRename fs logFile (archiveName logFile ts)) logFile lineBytes)
      logFile = some lineBytes
    exact fsStat_fsSet_self _ logFile lineBytes
  · intro s hstat hge hcomp
    subst hcomp
    have hex : fsExistsB fs logFile = true := by rw [fsExistsB, hstat]; rfl
    have hsz : fsSize fs logFile = s := by rw [fsSize, hstat]; rfl
    have harchstat : fsStat (fsRename fs logFile (archiveName logFile ts))
        (archiveName logFile ts) = some s := by
      rw [fsRename, hstat]
      show fsStat (fsSet (fsRemove fs logFile) (archiveName logFile ts) s)
        (archiveName logFile ts) = some s
      exact fsStat_fsSet_self _ _ s
    have hgone : fsStat (fsRename fs logFile (archiveName logFile ts)) logFile
        = none := by
      rw [fsRename, hstat]
      show fsStat (fsSet (fsRemove fs logFile) (archiveName logFile ts) s)
        logFile = none
      rw [fsStat_fsSet_ne _ _ _ _ harch.symm]
      exact fsStat_fsRemove_self fs logFile
    show fsStat (fsAppend
        (if fsExistsB fs logFile then
          if MAX_FILE_SIZE ≤ fsSize fs logFile then
            if false then
              (compressLogFile false (fsRename fs logFile (archiveName logFile ts))
                (archiveName logFile ts) pipelineOk gzBytes).1
            else fsRename fs logFile (archiveName logFile ts)
          else fs
         else fs) logFile lineBytes) (archiveName logFile ts) = some s
    rw [hex, if_pos rfl, hsz, if_pos hge]
    rw [if_neg (by simp), fsAppend, hgone]
    show fsStat (fsSet (fsRename fs logFile (archiveName logFile ts))
      logFile lineBytes) (archiveName logFile ts) = some s
    rw [fsStat_fsSet_ne _ _ _ _ harch]
    exact harchstat

/-- Witness for C3: a 5 MiB "logs.txt" rotates, and afterwards the active
file holds exactly the 42 appended bytes. -/
theorem rotation_threshold_witness :
    archiveName "logs.txt" "2025-01-01 00:00:00" ≠ "logs.txt"
    ∧ fsStat (fileSink MAX_FILE_SIZE false [("logs.txt", MAX_FILE_SIZE)]
        "logs.txt" "2025-01-01 00:00:00" 42 true 0).1 "logs.txt" = some 42 :=
  ⟨by decide,
   (rotation_threshold [("logs.txt", MAX_FILE_SIZE)] "logs.txt"
      "2025-01-01 00:00:00" 42 false true 0 (by decide) (by decide)).2.1
     MAX_FILE_SIZE rfl (Nat.le_refl MAX_FILE_SIZE)⟩

/-! ## Query engine: the filter predicate of `filterLogs` (app.js lines 933-979)

`new Date(x)` is environment-dependent string parsing; it is modeled by an
explicit `parse : String → Option Int` parameter where `none` is an Invalid
Date (`isNaN(d.getTime())`) and `some t` a valid epoch-millisecond value. -/

/-- JS `<` on two `Date` values: any comparison against an Invalid Date
(`NaN`) is false. -/
def jsDateLtB (a b : Option Int) : Bool :=
  match a, b with
  | some x, some y => decide (x < y)
  | _, _ => false

/-- JS `>` on two `Date` values, `NaN` behaving as above. -/
def jsDateGtB (a b : Option Int) : Bool :=
  match a, b with
  | some x, some y => decide (x > y)
  | _, _ => false

/-- The condition of lines 958: `isNaN(logDate.getTime()) || logDate < filterDate`
— `true` means the `startDate` filter drops the entry. -/
def startDateDrops (parse : String → Option Int) (startDate ts : String) : Bool :=
  (parse ts).isNone || jsDateLtB (parse ts) (parse startDate)

/-- The condition of line 970: `isNaN(logDate.getTime()) || logDate > filterDate`
— `true` means the `endDate` filter drops the entry. -/
def endDateDrops (parse : String → Option Int) (endDate ts : String) : Bool :=
  (parse ts).isNone || jsDateGtB (parse ts) (parse endDate)

/-- One parsed log record as seen by the filter (lines 897-902). -/
structure FilterEntry where
  timestamp : String
  message : String
  formattedMessage : String
  level : String
deriving DecidableEq

/-- The filter callback of lines 933-979 (`new Date` never throws, so both
catch arms of the source are dead code): level must match case-insensitively
when a level filter is supplied, the lowercased message/formattedMessage pair
must contain the search term, and an entry is dropped by a supplied date
bound when its own timestamp parses as Invalid Date or compares outside the
bound. -/
def filterInclude (parse : String → Option Int)
    (level search startDate endDate : String) (e : FilterEntry) : Bool :=
  (if trimStr level != "" then
    trimStr (toLowerStr e.level) == trimStr (toLowerStr level)
   else true)
  && (if trimStr search != "" then
        containsSubstr (toLowerStr (e.message ++ " " ++ e.formattedMessage))
          (toLowerStr search)
      else true)
  && (if trimStr startDate != "" then !(startDateDrops parse startDate e.timestamp)
      else true)
  && (if trimStr endDate != "" then !(endDateDrops parse endDate e.timestamp)
      else true)

/-- The final filtering pass of `filterLogs` (line 933), applied to the
merged, sorted log view. -/
def filterLogs (parse : String → Option Int)
    (level search startDate endDate : String) (logs : List FilterEntry) :
    List FilterEntry :=
  logs.filter (filterInclude parse level search startDate endDate)

/-- A concrete `new Date` model for the counterexample: only "2024-01-02"
parses. -/
def parseOnlyJan2 : String → Option Int :=
  fun s => if s == "2024-01-02" then some 0 else none

/-- Claim C7 counterexample: an entry whose own timestamp fails to parse IS
excluded by a supplied `startDate` bound — the `isNaN(logDate.getTime())`
disjunct of line 958 sets `include = false` — contradicting the claim that a
parse failure of the entry's timestamp merely skips the date filter.  With no
date bound the same entry is included, so the exclusion is on account of the
unparsable date alone. -/
theorem date_filter_counterexample :
    filterInclude parseOnlyJan2 "" "" "2024-01-02" ""
      ⟨"not-a-date", "boot", "[not-a-date] [INFO]: boot", "info"⟩ = false
    ∧ filterInclude parseOnlyJan2 "" "" "" ""
      ⟨"not-a-date", "boot", "[not-a-date] [INFO]: boot", "info"⟩ = true
    ∧ filterLogs parseOnlyJan2 "" "" "2024-01-02" ""
      [⟨"not-a-date", "boot", "[not-a-date] [INFO]: boot", "info"⟩] = [] := by
  refine ⟨by decide, by decide, by decide⟩

/-- Claim C7 (amended): an unparsable supplied bound never excludes an entry
whose own timestamp parses (the `NaN` comparison is false, so the filter is
skipped for that entry), but an entry whose own timestamp fails to parse is
excluded by any supplied `startDate` or `endDate` filter (lines 954-976). -/
theorem date_filter_permissive_bounds (parse : String → Option Int)
    (bound ts1 ts2 sd m fm lv : String) (t : Int)
    (hts1 : parse ts1 = some t) (hbound : parse bound = none)
    (hts2 : parse ts2 = none) (hsd : trimStr sd ≠ "") :
    startDateDrops parse bound ts1 = false
    ∧ endDateDrops parse bound ts1 = false
    ∧ (filterInclude parse "" "" bound "" ⟨ts1, m, fm, lv⟩ = true)
    ∧ startDateDrops parse sd ts2 = true
    ∧ endDateDrops parse sd ts2 = true
    ∧ (filterInclude parse "" "" sd "" ⟨ts2, m, fm, lv⟩ = false) := by
  have h1 : startDateDrops parse bound ts1 = false := by
    simp [startDateDrops, hts1, hbound, jsDateLtB]
  have h2 : endDateDrops parse bound ts1 = false := by
    simp [endDateDrops, hts1, hbound, jsDateGtB]
  have h4 : startDateDrops parse sd ts2 = true := by
    simp [startDateDrops, hts2]
  refine ⟨h1, h2, ?_, h4, by simp [endDateDrops, hts2], ?_⟩
  · simp [filterInclude, h1, show trimStr "" = "" from rfl]
  · simp [filterInclude, hsd, h4]

/-- Witness for the amended C7 at concrete strings: an unparsable bound does
not drop an entry with a valid timestamp. -/
theorem date_filter_permissive_bounds_witness :
    parseOnlyJan2 "2024-01-02" = some 0
    ∧ parseOnlyJan2 "nonsense" = none
    ∧ parseOnlyJan2 "not-a-date" = none
    ∧ trimStr "2024-01-02" ≠ ""
    ∧ startDateDrops parseOnlyJan2 "nonsense" "2024-01-02" = false :=
  ⟨by decide, by decide, by decide, by decide,
   (date_filter_permissive_bounds parseOnlyJan2 "nonsense" "2024-01-02"
      "not-a-date" "2024-01-02" "m" "fm" "info" 0
      (by decide) (by decide) (by decide) (by decide)).1⟩

/-! ## Access-gated HTTP surface (app.js lines 649-800)

Base64 decoding (`Buffer.from(x, "base64").toString("utf8")`) is environment
code and is passed in as an opaque `decode` function; the gate's control flow
does not depend on its values beyond equality tests. -/

/-- Lines 671-674: take the token after the first space of the header, decode
it, and split the result at ':' into `user` and (possibly absent) `pass`. -/
def parsedCreds (decode : String → String) (auth : String) : String × Option String :=
  let credentials := decode (String.mk ((splitOnChar ' ' auth.toList).getD 1 []))
  let parts := splitOnChar ':' credentials.toList
  (String.mk (parts.headD []), (parts[1]?).map String.mk)

/-- Where the authorization block of lines 649-683 exits. -/
inductive GateOutcome where
  | ipReject
  | credsMissing
  | credsBad
  | pass
deriving DecidableEq

/-- The authorization block (lines 649-683): when auth is enabled, first the
IP allow-list check (skipped under `bypassIpCheck`) requiring an exact string
match of the remote address, then the `Authorization` header check (absent or
falsy header, or one not containing "Basic ", is missing/malformed), then the
exact username/password comparison. -/
def authGate (cfg : Config) (decode : String → String) (ip : String)
    (authHeader : Option String) : GateOutcome :=
  if cfg.authEnabled then
    if !cfg.bypassIpCheck && !(cfg.allowedIPs.contains ip) then .ipReject
    else
      match authHeader with
      | none => .credsMissing
      | some auth =>
        if !(containsSubstr auth "Basic ") then .credsMissing
        else
          let c := parsedCreds decode auth
          if c.1 != cfg.username || c.2 != some cfg.password then .credsBad
          else .pass
  else .pass

/-- The route taken by the dispatch of lines 691-800. -/
inductive RouteResult where
  | dashboard
  | logsView
  | metricsDisabled
  | metricsBody
  | filesList
  | download
  | notFound
deriving DecidableEq

/-- Route dispatch (lines 691-800): `/metrics` answers 404 when metrics are
disabled (lines 748-751) and the metrics JSON otherwise; unknown paths are
404. -/
def dispatchRoute (cfg : Config) (pathname : String) : RouteResult :=
  if pathname == "/" then .dashboard
  else if pathname == "/logs" then .logsView
  else if pathname == "/metrics" then
    (if !cfg.enableMetrics then .metricsDisabled else .metricsBody)
  else if pathname == "/files" then .filesList
  else if "/download/".toList.isPrefixOf pathname.toList then .download
  else .notFound

/-- The response of the request handler: `forbidden403` is the 403 of line
655, `challenge401` the 401-with-`WWW-Authenticate` of lines 664-668 and
677-681 (both 401 branches carry the challenge header), and `routed` the
dispatch outcome (`metricsDisabled` and `notFound` are served as 404). -/
inductive HttpResponse where
  | forbidden403
  | challenge401
  | routed (r : RouteResult)
deriving DecidableEq

/-- The whole per-request handler of lines 626-801: the gate runs first and
is terminal at its first failure; route dispatch is reached only on `pass`. -/
def handleRequest (cfg : Config) (decode : String → String) (ip : String)
    (authHeader : Option String) (pathname : String) : HttpResponse :=
  match authGate cfg decode ip authHeader with
  | .ipReject => .forbidden403
  | .credsMissing => .challenge401
  | .credsBad => .challenge401
  | .pass => .routed (dispatchRoute cfg pathname)

/-- Claim C8: with auth enabled the gate checks run in order and terminate at
the first failure: a remote address with no exact allow-list match draws 403
before any credential check (for every authorization header); past the IP
check, a missing or malformed `Authorization: Basic` header draws the
401 challenge, as does a username/password mismatch; and route dispatch is
reached exactly when the gate passes (lines 649-683). -/
theorem gate_checks_in_order (cfg : Config) (decode : String → String)
    (ip pathname : String) (hdr : Option String)
    (he : cfg.authEnabled = true) :
    (cfg.bypassIpCheck = false → cfg.allowedIPs.contains ip = false →
      handleRequest cfg decode ip hdr pathname = .forbidden403)
    ∧ ((cfg.bypassIpCheck = true ∨ cfg.allowedIPs.contains ip = true) →
        hdr = none →
        handleRequest cfg decode ip hdr pathname = .challenge401)
    ∧ (∀ a, (cfg.bypassIpCheck = true ∨ cfg.allowedIPs.contains ip = true) →
        hdr = some a → containsSubstr a "Basic " = false →
        handleRequest cfg decode ip hdr pathname = .challenge401)
    ∧ (∀ a, (cfg.bypassIpCheck = true ∨ cfg.allowedIPs.contains ip = true) →
        hdr = some a → containsSubstr a "Basic " = true →
        ((parsedCreds decode a).1 ≠ cfg.username
          ∨ (parsedCreds decode a).2 ≠ some cfg.password) →
        handleRequest cfg decode ip hdr pathname = .challenge401)
    ∧ (handleRequest cfg decode ip hdr pathname = .routed (dispatchRoute cfg pathname)
        ↔ authGate cfg decode ip hdr = .pass) := by
  refine ⟨?_, ?_, ?_, ?_, ?_⟩
  · intro hbp hip
    have hip2 : ip ∉ cfg.allowedIPs := by simpa using hip
    simp [handleRequest, authGate, he, hbp, hip2]
  · intro hok hn
    subst hn
    rcases hok with hbp | hip
    · simp [handleRequest, authGate, he, hbp]
    · have hip2 : ip ∈ cfg.allowedIPs := by simpa using hip
      simp [handleRequest, authGate, he, hip2]
  · intro a hok ha hb
    subst ha
    rcases hok with hbp | hip
    · simp [handleRequest, authGate, he, hbp, hb]
    · have hip2 : ip ∈ cfg.allowedIPs := by simpa using hip
      simp [handleRequest, authGate, he, hip2, hb]
  · intro a hok ha hb hmis
    subst ha
    have hbad : ((parsedCreds decode a).1 != cfg.username
        || (parsedCreds decode a).2 != some cfg.password) = true := by
      rcases hmis with hu | hp
      · simp [hu]
      · simp [hp]
    rcases hok with hbp | hip
    · simp [handleRequest, authGate, he, hbp, hb, hbad]
    · have hip2 : ip ∈ cfg.allowedIPs := by simpa using hip
      simp [handleRequest, authGate, he, hip2, hb, hbad]
  · cases hg : authGate cfg decode ip hdr <;> simp [handleRequest, hg]

/-- Witness for C8: with the default configuration, a request from the
non-allow-listed address 10.0.0.1 is rejected 403 even though it carries
valid admin credentials. -/
theorem gate_checks_in_order_witness :
    (resolveConfig optionsNone).authEnabled = true
    ∧ (resolveConfig optionsNone).bypassIpCheck = false
    ∧ (resolveConfig optionsNone).allowedIPs.contains "10.0.0.1" = false
    ∧ handleRequest (resolveConfig optionsNone) (fun s => s) "10.0.0.1"
        (some "Basic admin:admin") "/logs" = .forbidden403 :=
  ⟨by decide, by decide, by decide,
   (gate_checks_in_order (resolveConfig optionsNone) (fun s => s) "10.0.0.1"
      "/logs" (some "Basic admin:admin") (by decide)).1 (by decide) (by decide)⟩

/-- Claim C9 counterexample: with the default configuration (auth enabled,
metrics disabled), an unauthenticated `GET /metrics` from an allow-listed
address receives the 401 challenge at the gate (line 663) — not the 404 of
lines 748-751, which is reachable only after the gate passes. -/
theorem metrics_unauthenticated_counterexample :
    (resolveConfig optionsNone).enableMetrics = false
    ∧ handleRequest (resolveConfig optionsNone) (fun s => s) "127.0.0.1" none
        "/metrics" = .challenge401
    ∧ HttpResponse.challenge401 ≠ .routed .metricsDisabled := by
  refine ⟨by decide, by decide, by decide⟩

/-- Claim C9 (amended): a `GET /metrics` request that passes the gate (auth
disabled, or allowed IP with valid credentials) receives 404 when metrics are
disabled; with auth enabled, a request with no credentials from a
non-rejected IP receives 401 before the route is consulted; and a
non-allow-listed IP receives 403 before any credential check
(lines 649-683 and 747-755). -/
theorem metrics_route_gated (cfg : Config) (decode : String → String)
    (ip : String) (hdr : Option String) :
    (authGate cfg decode ip hdr = .pass → cfg.enableMetrics = false →
      handleRequest cfg decode ip hdr "/metrics" = .routed .metricsDisabled)
    ∧ (cfg.authEnabled = true →
        (cfg.bypassIpCheck = true ∨ cfg.allowedIPs.contains ip = true) →
        hdr = none →
        handleRequest cfg decode ip hdr "/metrics" = .challenge401)
    ∧ (cfg.authEnabled = true → cfg.bypassIpCheck = false →
        cfg.allowedIPs.contains ip = false →
        handleRequest cfg decode ip hdr "/metrics" = .forbidden403) := by
  refine ⟨?_, ?_, ?_⟩
  · intro hg hmet
    simp [handleRequest, hg, dispatchRoute, hmet]
  · intro he hok hn
    subst hn
    rcases hok with hbp | hip
    · simp [handleRequest, authGate, he, hbp]
    · have hip2 : ip ∈ cfg.allowedIPs := by simpa using hip
      simp [handleRequest, authGate, he, hip2]
  · intro he hbp hip
    have hip2 : ip ∉ cfg.allowedIPs := by simpa using hip
    simp [handleRequest, authGate, he, hbp, hip2]

/-- Witness for C9 (amended): with auth disabled and metrics at their default
(disabled), an unauthenticated `GET /metrics` reaches the route and is
answered with the metrics-disabled 404. -/
theorem metrics_route_gated_witness :
    authGate (resolveConfig { authEnabled := some false }) (fun s => s)
      "127.0.0.1" none = .pass
    ∧ (resolveConfig { authEnabled := some false }).enableMetrics = false
    ∧ handleRequest (resolveConfig { authEnabled := some false }) (fun s => s)
        "127.0.0.1" none "/metrics" = .routed .metricsDisabled :=
  ⟨by decide, by decide,
   (metrics_route_gated (resolveConfig { authEnabled := some false })
      (fun s => s) "127.0.0.1" none).1 (by decide) (by decide)⟩

/-! ## Event bus subscription (app.js lines 1040-1049)

The Node `EventEmitter` collaborator is modeled at its boundary: its state is
the ordered list of (event, callback) registrations, with callbacks as opaque
`Nat` handles.  `emitter.on` appends a registration; `emitter.off`
(`removeListener`) removes the most recently added matching registration and
returns the emitter itself (for chaining). -/

abbrev EmitterState := List (String × Nat)

/-- `logEmitter.on(event, callback)`. -/
def emitterOn (em : EmitterState) (e : String) (cb : Nat) : EmitterState :=
  em ++ [(e, cb)]

/-- `logEmitter.off(event, callback)`: drop the last matching registration. -/
def emitterOff (em : EmitterState) (e : String) (cb : Nat) : EmitterState :=
  (em.reverse.erase (e, cb)).reverse

/-- The callbacks that `emit(e)` would invoke, in registration order. -/
def emitTargets (em : EmitterState) (e : String) : List Nat :=
  (em.filter (fun r => r.1 == e)).map (fun r => r.2)

/-- What the `remove` property of the object returned by the public `on`
holds: Node's `off` returns the emitter object, not a function. -/
inductive OffResult where
  | emitterObj (em : EmitterState)
  | fnObj
deriving DecidableEq

/-- The object literal returned by the public `on` (lines 1043-1045). -/
structure OnReturn where
  remove : OffResult
deriving DecidableEq

/-- The public `on(event, callback)` of lines 1040-1046: it subscribes the
callback and then, while building the returned object, immediately CALLS
`logEmitter.off(event, callback)` — `remove` is assigned that call's result
(the emitter object), not a function. -/
def subscribeOn (em : EmitterState) (e : String) (cb : Nat) :
    EmitterState × OnReturn :=
  let em1 := emitterOn em e cb
  let em2 := emitterOff em1 e cb
  (em2, { remove := OffResult.emitterObj em2 })

/-- Claim C10: for every event and callback, the public `on` removes the
listener at subscription time — the emitter state after `on` equals the state
before it, so the callback receives no subsequently emitted events — and the
returned object's `remove` property is the result of the `off` call (the
emitter object) rather than a function (lines 1040-1049). -/
theorem on_unsubscribes_immediately (em : EmitterState) (e : String) (cb : Nat) :
    subscribeOn em e cb = (em, { remove := OffResult.emitterObj em })
    ∧ emitTargets (subscribeOn em e cb).1 e = emitTargets em e := by
  have key : emitterOff (emitterOn em e cb) e cb = em := by
    rw [emitterOn, emitterOff, List.reverse_append]
    simp
  constructor
  · show (emitterOff (emitterOn em e cb) e cb,
      OnReturn.mk (OffResult.emitterObj (emitterOff (emitterOn em e cb) e cb)))
      = (em, OnReturn.mk (OffResult.emitterObj em))
    rw [key]
  · show emitTargets (emitterOff (emitterOn em e cb) e cb) e = emitTargets em e
    rw [key]

end Nodeloggerg
